import Mathlib

/-!
Shallow embedding of `src/bridge-service.ts` (class `BridgeService`).

The JavaScript `Map<string, PendingRequest>` is modelled as a `List` of
`PendingRequest` records in insertion order (a JS `Map` iterates its entries
in insertion order and holds at most one entry per key; key uniqueness is the
`wf` predicate below).  Time (`Date.now()`) is a `Nat` of milliseconds passed
in explicitly.  The caller-facing promise of `sendRequest` and the scheduled
`setTimeout` handle are modelled by an event trace: a mutating operation
returns, next to the new table, the list of `Event`s it fired —
`cancelTimeout h` for each `clearTimeout(h)` call and `settled id outcome`
for each invocation of an entry's `resolve`/`reject` callback.  Fresh UUIDs
are modelled by passing the generated id to `sendRequest` explicitly.
-/

namespace Bridge

/-- One outstanding remote operation (interface `PendingRequest`,
`bridge-service.ts` lines 3–13).  `α` is the opaque payload type (`data: any`).
The `resolve`/`reject` closures are not stored: settling the promise is
recorded in the event trace instead, keyed by the entry's unique `id`. -/
structure PendingRequest (α : Type) where
  id : String
  endpoint : String
  data : α
  timestamp : Nat
  timeoutId : Nat
  dispatched : Bool
  dispatchedAt : Nat
  deriving DecidableEq, Repr

/-- The outcome a caller's promise is settled with.  `ρ` is the opaque
response type; errors in the source are `Error(message)` values, modelled by
their message string. -/
inductive Settlement (ρ : Type) where
  | resolved (response : ρ)
  | rejected (error : String)
  deriving DecidableEq, Repr

/-- Observable side effects of the bridge operations: cancelling a scheduled
timeout (`clearTimeout(timeoutId)`) and settling an entry's promise
(`request.resolve(...)` / `request.reject(...)`). -/
inductive Event (ρ : Type) where
  | cancelTimeout (timeoutId : Nat)
  | settled (id : String) (outcome : Settlement ρ)
  deriving DecidableEq, Repr

/-- The mutable state of a `BridgeService` instance: the
`pendingRequests : Map<string, PendingRequest>` field (line 16). -/
structure BridgeState (α : Type) where
  pendingRequests : List (PendingRequest α)
  deriving DecidableEq, Repr

/-- `private requestTimeout = 60000` (line 17). -/
def requestTimeout : Nat := 60000

/-- `private dispatchStaleTimeout = 45000` (line 18). -/
def dispatchStaleTimeout : Nat := 45000

/-- Key uniqueness of the JS `Map`: no two entries share an `id`. -/
def wf {α : Type} (s : BridgeState α) : Prop :=
  (s.pendingRequests.map (fun r => r.id)).Nodup

instance {α : Type} (s : BridgeState α) : Decidable (wf s) := by
  unfold wf; infer_instance

/-- `sendRequest(endpoint, data)` (lines 20–46): stores a fresh entry with
`dispatched: false, dispatchedAt: 0` and `timestamp: Date.now()`.  The fresh
UUID, the current time and the `setTimeout` handle are explicit arguments.
The scheduled 60 s callback itself is not an event of this call (it fires
later); its handle is recorded in the entry so cancellations are observable. -/
def sendRequest {α : Type} (s : BridgeState α) (requestId : String)
    (endpoint : String) (data : α) (now : Nat) (timeoutId : Nat) :
    BridgeState α :=
  ⟨s.pendingRequests ++
    [{ id := requestId, endpoint := endpoint, data := data, timestamp := now,
       timeoutId := timeoutId, dispatched := false, dispatchedAt := 0 }]⟩

/-- The body of the scheduled `setTimeout` callback created by `sendRequest`
(lines 25–30): if the id is still present, delete it and reject with
`'Request timeout'`. -/
def fireOverallTimeout {α ρ : Type} (s : BridgeState α) (requestId : String) :
    BridgeState α × List (Event ρ) :=
  if s.pendingRequests.any (fun r => decide (r.id = requestId)) then
    (⟨s.pendingRequests.eraseP (fun r => decide (r.id = requestId))⟩,
     [Event.settled requestId (Settlement.rejected "Request timeout")])
  else (s, [])

/-- The per-entry stale-dispatch recovery of the scan (lines 54–61): a
`dispatched` entry whose dispatch is older than 45 s reverts to
`dispatched: false, dispatchedAt: 0`; every other entry is untouched. -/
def resetStale {α : Type} (now : Nat) (e : PendingRequest α) :
    PendingRequest α :=
  if e.dispatched = true ∧ now - e.dispatchedAt > dispatchStaleTimeout then
    { e with dispatched := false, dispatchedAt := 0 }
  else e

/-- The running-minimum update of the scan (lines 62–64):
`if (!oldestRequest || request.timestamp < oldestRequest.timestamp)
oldestRequest = request`.  The candidate is paired with its position in the
table so the post-loop in-place mutation of the chosen entry (lines 67–69)
can be expressed on the list. -/
def updateOldest {α : Type} (request : PendingRequest α) (idx : Nat) :
    Option (Nat × PendingRequest α) → Option (Nat × PendingRequest α)
  | none => some (idx, request)
  | some (j, o) =>
      if request.timestamp < o.timestamp then some (idx, request)
      else some (j, o)

/-- The scan loop of `getPendingRequest` (lines 53–65): walks the entries in
order, reverts stale dispatches in place, skips (`continue`) dispatched
entries still inside the 45 s window, and threads the oldest candidate seen
so far.  Returns the table after the in-place resets together with the final
`oldestRequest` (with its position). -/
def claimScan {α : Type} (now : Nat) :
    List (PendingRequest α) → Nat → Option (Nat × PendingRequest α) →
    List (PendingRequest α) × Option (Nat × PendingRequest α)
  | [], _, oldest => ([], oldest)
  | request :: rest, idx, oldest =>
    if request.dispatched then
      if now - request.dispatchedAt > dispatchStaleTimeout then
        let request := { request with dispatched := false, dispatchedAt := 0 }
        let out := claimScan now rest (idx + 1) (updateOldest request idx oldest)
        (request :: out.1, out.2)
      else
        let out := claimScan now rest (idx + 1) oldest
        (request :: out.1, out.2)
    else
      let out := claimScan now rest (idx + 1) (updateOldest request idx oldest)
      (request :: out.1, out.2)

/-- The value `getPendingRequest` hands to the poller (lines 70–76):
`{ requestId, request: { endpoint, data } }`, flattened. -/
structure ClaimResponse (α : Type) where
  requestId : String
  endpoint : String
  data : α
  deriving DecidableEq, Repr

/-- `getPendingRequest()` (lines 48–80): one scan with stale recovery and
oldest-first selection; if a candidate was found it is marked
`dispatched: true, dispatchedAt: now` in place and returned, otherwise the
result is `none` (`null`). -/
def getPendingRequest {α : Type} (s : BridgeState α) (now : Nat) :
    BridgeState α × Option (ClaimResponse α) :=
  match claimScan now s.pendingRequests 0 none with
  | (scanned, some (i, o)) =>
      let o := { o with dispatched := true, dispatchedAt := now }
      (⟨scanned.set i o⟩,
       some { requestId := o.id, endpoint := o.endpoint, data := o.data })
  | (scanned, none) => (⟨scanned⟩, none)

/-- `resolveRequest(requestId, response)` (lines 82–89): on a present id,
cancel the entry's timeout, delete it from the map, and resolve its promise
with the response; on an absent id, do nothing. -/
def resolveRequest {α ρ : Type} (s : BridgeState α) (requestId : String)
    (response : ρ) : BridgeState α × List (Event ρ) :=
  match s.pendingRequests.find? (fun r => decide (r.id = requestId)) with
  | some request =>
      (⟨s.pendingRequests.eraseP (fun r => decide (r.id = requestId))⟩,
       [Event.cancelTimeout request.timeoutId,
        Event.settled request.id (Settlement.resolved response)])
  | none => (s, [])

/-- `rejectRequest(requestId, error)` (lines 91–98): on a present id, cancel
the entry's timeout, delete it, and reject its promise with the error; on an
absent id, do nothing. -/
def rejectRequest {α ρ : Type} (s : BridgeState α) (requestId : String)
    (error : String) : BridgeState α × List (Event ρ) :=
  match s.pendingRequests.find? (fun r => decide (r.id = requestId)) with
  | some request =>
      (⟨s.pendingRequests.eraseP (fun r => decide (r.id = requestId))⟩,
       [Event.cancelTimeout request.timeoutId,
        Event.settled request.id (Settlement.rejected error)])
  | none => (s, [])

/-- The body of the `cleanupOldRequests` loop (lines 102–108), one entry at a
time in iteration order (deleting while iterating a JS `Map` is safe and the
remaining entries are still visited). -/
def cleanupScan {α ρ : Type} (now : Nat) :
    List (PendingRequest α) → List (PendingRequest α) × List (Event ρ)
  | [] => ([], [])
  | request :: rest =>
    let out := cleanupScan now rest
    if now - request.timestamp > requestTimeout then
      (out.1,
       Event.cancelTimeout request.timeoutId ::
         Event.settled request.id (Settlement.rejected "Request timeout") ::
           out.2)
    else (request :: out.1, out.2)

/-- `cleanupOldRequests()` (lines 100–109): for every entry older than 60 s,
cancel its timeout, delete it, and reject with `'Request timeout'`; the other
entries are untouched. -/
def cleanupOldRequests {α ρ : Type} (s : BridgeState α) (now : Nat) :
    BridgeState α × List (Event ρ) :=
  (⟨(@cleanupScan α ρ now s.pendingRequests).1⟩,
   (@cleanupScan α ρ now s.pendingRequests).2)

/-- `clearAllPendingRequests()` (lines 111–117): cancel every entry's
timeout, reject every promise with `'Connection closed'`, and clear the map. -/
def clearAllPendingRequests {α ρ : Type} (s : BridgeState α) :
    BridgeState α × List (Event ρ) :=
  (⟨[]⟩,
   s.pendingRequests.flatMap (fun request =>
     [Event.cancelTimeout request.timeoutId,
      Event.settled request.id (Settlement.rejected "Connection closed")]))

/-- Left-biased minimum on indexed candidates: the right operand wins only
with a strictly smaller timestamp.  This is the combining operation implicit
in the scan's running minimum. -/
def mergeOldest {α : Type} :
    Option (Nat × PendingRequest α) → Option (Nat × PendingRequest α) →
    Option (Nat × PendingRequest α)
  | none, m => m
  | some p, none => some p
  | some p, some q =>
      if q.2.timestamp < p.2.timestamp then some q else some p

/-- First candidate with the minimal timestamp, in list order (earlier
entries win ties). -/
def argminFirst {α : Type} :
    List (Nat × PendingRequest α) → Option (Nat × PendingRequest α)
  | [] => none
  | p :: rest =>
      match argminFirst rest with
      | none => some p
      | some q => if q.2.timestamp < p.2.timestamp then some q else some p

/-- The candidates the scan considers, with their positions: each entry after
its own stale reset, kept only when eligible (not dispatched). -/
def claimCandidates {α : Type} (now : Nat) (idx : Nat) :
    List (PendingRequest α) → List (Nat × PendingRequest α)
  | [] => []
  | request :: rest =>
    if (resetStale now request).dispatched then
      claimCandidates now (idx + 1) rest
    else
      (idx, resetStale now request) :: claimCandidates now (idx + 1) rest

/-- Modelled from the spec: `claimNext` per §4.2 — first revert every stale
dispatch in place, then among all entries now eligible (`dispatched=false`)
select the one with the smallest `createdAt`, ties broken by first
encountered; if found, set `dispatched=true, dispatchedAt=now` and return its
id, endpoint and payload, otherwise return empty. -/
def claimNextSpec {α : Type} (s : BridgeState α) (now : Nat) :
    BridgeState α × Option (ClaimResponse α) :=
  let l := s.pendingRequests.map (resetStale now)
  match argminFirst (l.enum.filter (fun p => !p.2.dispatched)) with
  | some (i, e) =>
      (⟨l.set i { e with dispatched := true, dispatchedAt := now }⟩,
       some { requestId := e.id, endpoint := e.endpoint, data := e.data })
  | none => (⟨l⟩, none)

/-- `getPendingCount()` (lines 119–121). -/
def getPendingCount {α : Type} (s : BridgeState α) : Nat :=
  s.pendingRequests.length

/-- `getDispatchedCount()` (lines 123–129). -/
def getDispatchedCount {α : Type} (s : BridgeState α) : Nat :=
  (s.pendingRequests.filter (fun r => r.dispatched)).length

/-- Does this event settle the promise of the entry with the given id? -/
def settlesId {ρ : Type} (requestId : String) : Event ρ → Bool
  | Event.settled i _ => decide (i = requestId)
  | Event.cancelTimeout _ => false

section Lemmas

variable {α ρ : Type}

theorem resetStale_of_not_dispatched {now : Nat} {e : PendingRequest α}
    (h : e.dispatched = false) : resetStale now e = e := by
  simp [resetStale, h]

theorem resetStale_of_fresh {now : Nat} {e : PendingRequest α}
    (h : ¬ now - e.dispatchedAt > dispatchStaleTimeout) :
    resetStale now e = e := by
  simp [resetStale, h]

theorem resetStale_of_stale {now : Nat} {e : PendingRequest α}
    (h1 : e.dispatched = true)
    (h2 : now - e.dispatchedAt > dispatchStaleTimeout) :
    resetStale now e = { e with dispatched := false, dispatchedAt := 0 } := by
  simp [resetStale, h1, h2]

@[simp] theorem resetStale_id (now : Nat) (e : PendingRequest α) :
    (resetStale now e).id = e.id := by
  unfold resetStale; split <;> rfl

@[simp] theorem resetStale_endpoint (now : Nat) (e : PendingRequest α) :
    (resetStale now e).endpoint = e.endpoint := by
  unfold resetStale; split <;> rfl

@[simp] theorem resetStale_data (now : Nat) (e : PendingRequest α) :
    (resetStale now e).data = e.data := by
  unfold resetStale; split <;> rfl

@[simp] theorem resetStale_timestamp (now : Nat) (e : PendingRequest α) :
    (resetStale now e).timestamp = e.timestamp := by
  unfold resetStale; split <;> rfl

@[simp] theorem resetStale_timeoutId (now : Nat) (e : PendingRequest α) :
    (resetStale now e).timeoutId = e.timeoutId := by
  unfold resetStale; split <;> rfl

theorem updateOldest_eq_mergeOldest (request : PendingRequest α) (idx : Nat)
    (acc : Option (Nat × PendingRequest α)) :
    updateOldest request idx acc = mergeOldest acc (some (idx, request)) := by
  cases acc with
  | none => rfl
  | some p => cases p with
    | mk j o => rfl

@[simp] theorem mergeOldest_none_left (m : Option (Nat × PendingRequest α)) :
    mergeOldest none m = m := rfl

@[simp] theorem mergeOldest_none_right (a : Option (Nat × PendingRequest α)) :
    mergeOldest a none = a := by
  cases a <;> rfl

theorem mergeOldest_assoc (a b c : Option (Nat × PendingRequest α)) :
    mergeOldest (mergeOldest a b) c = mergeOldest a (mergeOldest b c) := by
  rcases a with _ | p
  · rfl
  rcases b with _ | q
  · rfl
  rcases c with _ | r
  · simp
  simp only [mergeOldest]
  by_cases h1 : q.2.timestamp < p.2.timestamp <;>
    by_cases h2 : r.2.timestamp < q.2.timestamp <;>
      by_cases h3 : r.2.timestamp < p.2.timestamp <;>
        simp [h1, h2, h3] <;> first | rfl | (exfalso; omega)

theorem argminFirst_cons (p : Nat × PendingRequest α)
    (l : List (Nat × PendingRequest α)) :
    argminFirst (p :: l) = mergeOldest (some p) (argminFirst l) := by
  cases h : argminFirst l with
  | none => simp [argminFirst, h, mergeOldest]
  | some q => simp [argminFirst, h, mergeOldest]

/-- The scan loop computes the stale-reset table together with the
left-biased minimum of the eligible candidates. -/
theorem claimScan_eq (now : Nat) (l : List (PendingRequest α)) :
    ∀ (idx : Nat) (acc : Option (Nat × PendingRequest α)),
    claimScan now l idx acc =
      (l.map (resetStale now),
       mergeOldest acc (argminFirst (claimCandidates now idx l))) := by
  induction l with
  | nil => intro idx acc; simp [claimScan, claimCandidates, argminFirst]
  | cons request rest ih =>
    intro idx acc
    by_cases hd : request.dispatched
    · by_cases hs : now - request.dispatchedAt > dispatchStaleTimeout
      · have hr : resetStale now request =
            { request with dispatched := false, dispatchedAt := 0 } :=
          resetStale_of_stale hd hs
        simp [claimScan, hd, hs, claimCandidates, hr, ih,
          updateOldest_eq_mergeOldest, argminFirst_cons, mergeOldest_assoc]
      · have hr : resetStale now request = request := resetStale_of_fresh hs
        simp [claimScan, hd, hs, claimCandidates, hr, ih]
    · have hd' : request.dispatched = false := by
        simpa using hd
      have hr : resetStale now request = request :=
        resetStale_of_not_dispatched hd'
      simp [claimScan, hd', claimCandidates, hr, ih,
        updateOldest_eq_mergeOldest, argminFirst_cons, mergeOldest_assoc]

theorem claimCandidates_eq (now : Nat) (l : List (PendingRequest α)) :
    ∀ idx, claimCandidates now idx l =
      ((l.map (resetStale now)).enumFrom idx).filter
        (fun p => !p.2.dispatched) := by
  induction l with
  | nil => intro idx; rfl
  | cons request rest ih =>
    intro idx
    by_cases h : (resetStale now request).dispatched <;>
      simp [claimCandidates, h, List.enumFrom_cons, ih, List.filter_cons]

/-- The source's `getPendingRequest` coincides with the specification's
description of `claimNext`. -/
theorem getPendingRequest_eq_claimNextSpec (s : BridgeState α) (now : Nat) :
    getPendingRequest s now = claimNextSpec s now := by
  have hc : claimCandidates now 0 s.pendingRequests =
      ((s.pendingRequests.map (resetStale now)).enum).filter
        (fun p => !p.2.dispatched) := by
    rw [claimCandidates_eq]
    rfl
  simp only [getPendingRequest, claimNextSpec, claimScan_eq, hc,
    mergeOldest_none_left]
  cases h : argminFirst
      (((s.pendingRequests.map (resetStale now)).enum).filter
        (fun p => !p.2.dispatched)) with
  | none => rfl
  | some p => rcases p with ⟨i, e⟩; rfl

theorem argminFirst_eq_none {l : List (Nat × PendingRequest α)} :
    argminFirst l = none ↔ l = [] := by
  cases l with
  | nil => simp [argminFirst]
  | cons q rest =>
    rw [argminFirst_cons]
    cases argminFirst rest with
    | none => simp
    | some m =>
      rw [show mergeOldest (some q) (some m) =
        if m.2.timestamp < q.2.timestamp then some m else some q from rfl]
      split <;> simp

theorem argminFirst_mem {l : List (Nat × PendingRequest α)} :
    ∀ {p : Nat × PendingRequest α}, argminFirst l = some p → p ∈ l := by
  induction l with
  | nil => intro p h; simp [argminFirst] at h
  | cons q rest ih =>
    intro p h
    rw [argminFirst_cons] at h
    cases hr : argminFirst rest with
    | none =>
      rw [hr] at h
      simp only [mergeOldest_none_right, Option.some.injEq] at h
      simp [← h]
    | some m =>
      rw [hr] at h
      simp only [mergeOldest] at h
      split_ifs at h with hlt <;>
        simp only [Option.some.injEq] at h
      · exact List.mem_cons_of_mem _ (h ▸ ih hr)
      · simp [← h]

/-- `argminFirst` returns the first candidate carrying the minimal
timestamp: it is in the list, nothing in the list has a smaller timestamp,
and every strictly earlier position has a strictly larger timestamp. -/
theorem argminFirst_first_min {l : List (Nat × PendingRequest α)} :
    ∀ {p : Nat × PendingRequest α}, argminFirst l = some p →
    ∃ i, ∃ hi : i < l.length, l.get ⟨i, hi⟩ = p ∧
      (∀ j (hj : j < l.length),
        p.2.timestamp ≤ (l.get ⟨j, hj⟩).2.timestamp) ∧
      (∀ j (hj : j < l.length), j < i →
        p.2.timestamp < (l.get ⟨j, hj⟩).2.timestamp) := by
  induction l with
  | nil => intro p h; simp [argminFirst] at h
  | cons q rest ih =>
    intro p h
    rw [argminFirst_cons] at h
    cases hr : argminFirst rest with
    | none =>
      rw [hr] at h
      have hnil : rest = [] := argminFirst_eq_none.mp hr
      simp only [mergeOldest_none_right, Option.some.injEq] at h
      subst hnil
      subst h
      refine ⟨0, by simp, by simp, ?_, ?_⟩
      · intro j hj
        simp only [List.length_cons, List.length_nil] at hj
        have hj0 : j = 0 := by omega
        subst hj0
        simp
      · intro j hj hj0
        exact absurd hj0 (Nat.not_lt_zero j)
    | some m =>
      rw [hr] at h
      obtain ⟨i, hi, hget, hmin, hfirst⟩ := ih hr
      simp only [mergeOldest] at h
      split_ifs at h with hlt <;> simp only [Option.some.injEq] at h
      · subst h
        refine ⟨i + 1, by simpa using Nat.succ_lt_succ hi, by simpa using hget,
          ?_, ?_⟩
        · intro j hj
          cases j with
          | zero => simpa using le_of_lt hlt
          | succ k =>
            have := hmin k (by simpa using hj)
            simpa using this
        · intro j hj hji
          cases j with
          | zero => simpa using hlt
          | succ k =>
            have := hfirst k (by simpa using hj) (by omega)
            simpa using this
      · subst h
        refine ⟨0, by simp, by simp, ?_, ?_⟩
        · intro j hj
          cases j with
          | zero => simp
          | succ k =>
            have h1 : q.2.timestamp ≤ m.2.timestamp := le_of_not_lt hlt
            have h2 := hmin k (by simpa using hj)
            have := le_trans h1 h2
            simpa using this
        · intro j hj hj0
          exact absurd hj0 (Nat.not_lt_zero j)

theorem set_self_eq {β : Type} (l : List β) (i : Nat) (hi : i < l.length) :
    l.set i l[i] = l := by
  apply List.ext_getElem (by simp)
  intro j h1 h2
  simp only [List.getElem_set]
  split <;> simp_all

/-- Unpacking a selection: the candidate chosen by the scan sits at a valid
index, is the stale-reset version of the entry there, and is eligible. -/
theorem claimSel_spec {l : List (PendingRequest α)} {now : Nat}
    {i : Nat} {e : PendingRequest α}
    (hsel : argminFirst ((l.map (resetStale now)).enum.filter
      (fun p => !p.2.dispatched)) = some (i, e)) :
    ∃ hi : i < l.length, e = resetStale now l[i] ∧ e.dispatched = false := by
  have hmem := argminFirst_mem hsel
  rw [List.mem_filter] at hmem
  obtain ⟨henum, helig⟩ := hmem
  rw [List.mk_mem_enum_iff_getElem?] at henum
  rw [List.getElem?_eq_some] at henum
  obtain ⟨hi, hval⟩ := henum
  have hi' : i < l.length := by simpa using hi
  refine ⟨hi', ?_, by simpa using helig⟩
  rw [← hval]
  simp

/-- If `getPendingRequest` returns a claim, the claim is the stale-reset
entry at some index `i` that is eligible, and the new table is the
stale-reset table with that entry marked dispatched at `now`. -/
theorem getPendingRequest_some {s : BridgeState α} {now : Nat}
    {r : ClaimResponse α}
    (h : (getPendingRequest s now).2 = some r) :
    ∃ i, ∃ hi : i < s.pendingRequests.length,
      (resetStale now s.pendingRequests[i]).dispatched = false ∧
      r.requestId = s.pendingRequests[i].id ∧
      r.endpoint = s.pendingRequests[i].endpoint ∧
      r.data = s.pendingRequests[i].data ∧
      (getPendingRequest s now).1.pendingRequests =
        (s.pendingRequests.map (resetStale now)).set i
          { resetStale now s.pendingRequests[i] with
              dispatched := true, dispatchedAt := now } := by
  rw [getPendingRequest_eq_claimNextSpec] at h ⊢
  simp only [claimNextSpec] at h ⊢
  revert h
  cases hsel : argminFirst ((s.pendingRequests.map (resetStale now)).enum.filter
      (fun p => !p.2.dispatched)) with
  | none => intro h; simp at h
  | some p =>
    rcases p with ⟨i, e⟩
    intro h
    simp only [Option.some.injEq] at h
    obtain ⟨hi, hval, helig⟩ := claimSel_spec hsel
    refine ⟨i, hi, by rw [← hval]; exact helig, ?_, ?_, ?_, ?_⟩ <;>
      simp [← h, hval]

/-- A dispatched entry still inside the 45 s window is never the returned
claim (its id differs from the returned id, given unique ids). -/
theorem getPendingRequest_skips_live {s : BridgeState α} {now : Nat}
    {r : ClaimResponse α} (hwf : wf s)
    (h : (getPendingRequest s now).2 = some r)
    {e : PendingRequest α} (he : e ∈ s.pendingRequests)
    (hd : e.dispatched = true)
    (hfresh : now - e.dispatchedAt ≤ dispatchStaleTimeout) :
    r.requestId ≠ e.id := by
  obtain ⟨i, hi, helig, hid, -, -, -⟩ := getPendingRequest_some h
  obtain ⟨k, hk, hek⟩ := List.mem_iff_getElem.mp he
  intro hcontra
  by_cases hik : i = k
  · subst hik
    rw [hek, resetStale_of_fresh (by omega), hd] at helig
    simp at helig
  · have hmap : ∀ j, ∀ hj : j < s.pendingRequests.length,
        j < (s.pendingRequests.map (fun q => q.id)).length := by
      intro j hj; simpa using hj
    have hids : (s.pendingRequests.map (fun q => q.id)).get ⟨i, hmap i hi⟩ =
        (s.pendingRequests.map (fun q => q.id)).get ⟨k, hmap k hk⟩ := by
      simp only [List.get_eq_getElem, List.getElem_map]
      rw [hek, ← hid, hcontra]
    exact hik (congrArg Fin.val ((List.Nodup.get_inj_iff hwf).mp hids))

/-- `getPendingRequest` preserves every per-entry field that neither the
stale reset nor the dispatch marking touches. -/
theorem getPendingRequest_map_field {β : Type} (s : BridgeState α) (now : Nat)
    (f : PendingRequest α → β)
    (hf1 : ∀ e, f (resetStale now e) = f e)
    (hf2 : ∀ e, f { e with dispatched := true, dispatchedAt := now } = f e) :
    (getPendingRequest s now).1.pendingRequests.map f =
      s.pendingRequests.map f := by
  rw [getPendingRequest_eq_claimNextSpec]
  simp only [claimNextSpec]
  cases hsel : argminFirst ((s.pendingRequests.map (resetStale now)).enum.filter
      (fun p => !p.2.dispatched)) with
  | none =>
    simp only [List.map_map]
    exact List.map_congr_left (fun e _ => hf1 e)
  | some p =>
    rcases p with ⟨i, e⟩
    obtain ⟨hi, hval, -⟩ := claimSel_spec hsel
    simp only [List.map_set, List.map_map]
    have hmm : s.pendingRequests.map (f ∘ resetStale now) =
        s.pendingRequests.map f :=
      List.map_congr_left (fun e _ => hf1 e)
    have hide : f { e with dispatched := true, dispatchedAt := now } =
        f s.pendingRequests[i] := by
      rw [hf2, hval, hf1]
    rw [hmm, hide]
    have := set_self_eq (s.pendingRequests.map f) i (by simpa using hi)
    simpa using this

/-- `getPendingRequest` never changes the list of ids in the table. -/
theorem getPendingRequest_ids (s : BridgeState α) (now : Nat) :
    (getPendingRequest s now).1.pendingRequests.map (fun e => e.id) =
      s.pendingRequests.map (fun e => e.id) :=
  getPendingRequest_map_field s now (fun e => e.id) (fun e => by simp)
    (fun e => rfl)

/-- `getPendingRequest` never changes the number of entries. -/
theorem getPendingRequest_length (s : BridgeState α) (now : Nat) :
    (getPendingRequest s now).1.pendingRequests.length =
      s.pendingRequests.length := by
  have h := congrArg List.length (getPendingRequest_ids s now)
  simpa using h

/-- `getPendingRequest` preserves key uniqueness. -/
theorem getPendingRequest_wf {s : BridgeState α} (now : Nat) (hwf : wf s) :
    wf (getPendingRequest s now).1 := by
  unfold wf at hwf ⊢
  rw [getPendingRequest_ids]
  exact hwf

/-- If no claim is returned, the new table is just the stale-reset table. -/
theorem getPendingRequest_none {s : BridgeState α} {now : Nat}
    (h : (getPendingRequest s now).2 = none) :
    (getPendingRequest s now).1.pendingRequests =
      s.pendingRequests.map (resetStale now) := by
  rw [getPendingRequest_eq_claimNextSpec] at h ⊢
  simp only [claimNextSpec] at h ⊢
  revert h
  cases hsel : argminFirst ((s.pendingRequests.map (resetStale now)).enum.filter
      (fun p => !p.2.dispatched)) with
  | none => intro _; rfl
  | some p => rcases p with ⟨i, e⟩; intro h; simp at h

/-- The entry a claim returns is present in the new table, marked
dispatched at `now`. -/
theorem getPendingRequest_marks {s : BridgeState α} {now : Nat}
    {r : ClaimResponse α}
    (h : (getPendingRequest s now).2 = some r) :
    ∃ e ∈ (getPendingRequest s now).1.pendingRequests,
      e.id = r.requestId ∧ e.dispatched = true ∧ e.dispatchedAt = now := by
  obtain ⟨i, hi, -, hid, -, -, hpost⟩ := getPendingRequest_some h
  refine ⟨{ resetStale now s.pendingRequests[i] with
      dispatched := true, dispatchedAt := now }, ?_, by simpa using hid.symm,
    rfl, rfl⟩
  rw [hpost]
  apply List.mem_iff_getElem.mpr
  exact ⟨i, by simpa using hi, List.getElem_set_self _⟩

/-- Three undispatched requests with increasing timestamps are claimed
oldest-first by three successive calls inside the stale window. -/
theorem threeClaims_scenario {α : Type} (e1 e2 e3 : PendingRequest α)
    (u1 u2 u3 : Nat)
    (hd1 : e1.dispatched = false) (hd2 : e2.dispatched = false)
    (hd3 : e3.dispatched = false)
    (h12 : e1.timestamp < e2.timestamp) (h23 : e2.timestamp < e3.timestamp)
    (hw1 : u2 - u1 ≤ dispatchStaleTimeout)
    (hw2 : u3 - u1 ≤ dispatchStaleTimeout)
    (hw3 : u3 - u2 ≤ dispatchStaleTimeout) :
    (getPendingRequest ⟨[e1, e2, e3]⟩ u1).2 =
        some ⟨e1.id, e1.endpoint, e1.data⟩ ∧
    (getPendingRequest (getPendingRequest ⟨[e1, e2, e3]⟩ u1).1 u2).2 =
        some ⟨e2.id, e2.endpoint, e2.data⟩ ∧
    (getPendingRequest (getPendingRequest (getPendingRequest
        ⟨[e1, e2, e3]⟩ u1).1 u2).1 u3).2 =
        some ⟨e3.id, e3.endpoint, e3.data⟩ := by
  have ht21 : ¬ (e2.timestamp < e1.timestamp) := not_lt.mpr (le_of_lt h12)
  have ht31 : ¬ (e3.timestamp < e1.timestamp) :=
    not_lt.mpr (le_of_lt (lt_trans h12 h23))
  have ht32 : ¬ (e3.timestamp < e2.timestamp) := not_lt.mpr (le_of_lt h23)
  have hn1 : ¬ (u2 - u1 > dispatchStaleTimeout) := not_lt.mpr hw1
  have hn2 : ¬ (u3 - u1 > dispatchStaleTimeout) := not_lt.mpr hw2
  have hn3 : ¬ (u3 - u2 > dispatchStaleTimeout) := not_lt.mpr hw3
  refine ⟨?_, ?_, ?_⟩ <;>
    simp [getPendingRequest, claimScan, updateOldest, hd1, hd2, hd3,
      ht21, ht31, ht32, hn1, hn2, hn3]

theorem find?_id_of_mem {s : List (PendingRequest α)}
    (hnodup : (s.map (fun r => r.id)).Nodup)
    {e : PendingRequest α} (he : e ∈ s) :
    s.find? (fun r => decide (r.id = e.id)) = some e := by
  induction s with
  | nil => simp at he
  | cons a rest ih =>
    rw [List.map_cons, List.nodup_cons] at hnodup
    obtain ⟨hna, hnr⟩ := hnodup
    by_cases hae : a.id = e.id
    · have hea : a = e := by
        rcases List.mem_cons.mp he with h | h
        · exact h.symm
        · exact absurd (hae ▸ List.mem_map_of_mem (fun r => r.id) h) hna
      rw [List.find?_cons_of_pos _ (by simp [hae]), hea]
    · have he' : e ∈ rest := by
        rcases List.mem_cons.mp he with h | h
        · exact absurd (h ▸ rfl) hae
        · exact h
      rw [List.find?_cons_of_neg _ (by simp [hae])]
      exact ih hnr he'

theorem eraseP_id_eq_filter {s : List (PendingRequest α)}
    (hnodup : (s.map (fun r => r.id)).Nodup) (id0 : String) :
    s.eraseP (fun r => decide (r.id = id0)) =
      s.filter (fun r => !decide (r.id = id0)) := by
  induction s with
  | nil => rfl
  | cons a rest ih =>
    rw [List.map_cons, List.nodup_cons] at hnodup
    obtain ⟨hna, hnr⟩ := hnodup
    by_cases ha : a.id = id0
    · rw [List.eraseP_cons_of_pos (by simp [ha]),
        List.filter_cons_of_neg (by simp [ha])]
      symm
      rw [List.filter_eq_self]
      intro x hx
      have hxa : x.id ≠ id0 := by
        intro hcontra
        exact hna (ha ▸ hcontra ▸ List.mem_map_of_mem (fun r => r.id) hx)
      simp [hxa]
    · rw [List.eraseP_cons_of_neg (by simp [ha]),
        List.filter_cons_of_pos (by simp [ha]), ih hnr]

/-- `resolveRequest` on a present id: cancel, remove, resolve. -/
theorem resolveRequest_found {s : BridgeState α} (hwf : wf s)
    {e : PendingRequest α} (he : e ∈ s.pendingRequests) (resp : ρ) :
    resolveRequest s e.id resp =
      (⟨s.pendingRequests.filter (fun r => !decide (r.id = e.id))⟩,
       [Event.cancelTimeout e.timeoutId,
        Event.settled e.id (Settlement.resolved resp)]) := by
  unfold resolveRequest
  rw [find?_id_of_mem hwf he, eraseP_id_eq_filter hwf]

/-- `rejectRequest` on a present id: cancel, remove, reject. -/
theorem rejectRequest_found {s : BridgeState α} (hwf : wf s)
    {e : PendingRequest α} (he : e ∈ s.pendingRequests) (err : String) :
    (rejectRequest s e.id err : BridgeState α × List (Event ρ)) =
      (⟨s.pendingRequests.filter (fun r => !decide (r.id = e.id))⟩,
       [Event.cancelTimeout e.timeoutId,
        Event.settled e.id (Settlement.rejected err)]) := by
  unfold rejectRequest
  rw [find?_id_of_mem hwf he, eraseP_id_eq_filter hwf]

/-- `resolveRequest` on an absent id: nothing happens. -/
theorem resolveRequest_absent {s : BridgeState α} {id0 : String}
    (h : ∀ e ∈ s.pendingRequests, e.id ≠ id0) (resp : ρ) :
    resolveRequest s id0 resp = (s, []) := by
  unfold resolveRequest
  rw [List.find?_eq_none.mpr (fun a ha => by simpa using h a ha)]

/-- `rejectRequest` on an absent id: nothing happens. -/
theorem rejectRequest_absent {s : BridgeState α} {id0 : String}
    (h : ∀ e ∈ s.pendingRequests, e.id ≠ id0) (err : String) :
    (rejectRequest s id0 err : BridgeState α × List (Event ρ)) = (s, []) := by
  unfold rejectRequest
  rw [List.find?_eq_none.mpr (fun a ha => by simpa using h a ha)]

/-- After removal, no entry with the removed id remains. -/
theorem filter_id_not_mem {s : List (PendingRequest α)} (id0 : String) :
    ∀ x ∈ s.filter (fun r => !decide (r.id = id0)), x.id ≠ id0 := by
  intro x hx
  have := List.mem_filter.mp hx
  simpa using this.2

/-- Settlement count in a bulk-rejection trace: one settle event per matching
id occurrence. -/
theorem reject_flatMap_countP (l : List (PendingRequest α)) (msg id0 : String) :
    ((l.flatMap (fun request =>
        ([Event.cancelTimeout request.timeoutId,
          Event.settled request.id (Settlement.rejected msg)] :
           List (Event ρ)))).countP (settlesId id0)) =
      (l.map (fun r => r.id)).count id0 := by
  induction l with
  | nil => rfl
  | cons a rest ih =>
    by_cases h : a.id = id0 <;>
      simp [List.flatMap_cons, List.countP_append, List.countP_cons,
        settlesId, List.count_cons, h, ih]

/-- The shape of the cleanup loop: over-age entries are dropped with their
cancellation and rejection events, fresh entries are kept verbatim. -/
theorem cleanupScan_eq (now : Nat) (l : List (PendingRequest α)) :
    (cleanupScan now l : _ × List (Event ρ)) =
      (l.filter (fun e => !decide (now - e.timestamp > requestTimeout)),
       (l.filter (fun e => decide (now - e.timestamp > requestTimeout))).flatMap
         (fun request =>
           [Event.cancelTimeout request.timeoutId,
            Event.settled request.id (Settlement.rejected "Request timeout")])) := by
  induction l with
  | nil => rfl
  | cons a rest ih =>
    by_cases h : now - a.timestamp > requestTimeout <;>
      simp [cleanupScan, h, ih, List.filter_cons, List.flatMap_cons]

end Lemmas

section Claims

/-- C2: `claimNext` reverts stale dispatches, then selects among the
eligible (`dispatched=false`) entries the one with the smallest `createdAt`,
ties broken by the first encountered in scan order, marks it
`dispatched=true, dispatchedAt=now` in place, and returns its id, endpoint
and payload; with no eligible entry it returns empty — stated as equality
with the spec-modelled `claimNextSpec`.  In particular three requests
submitted at t1 < t2 < t3, none dispatched, are returned in that order by
three successive claims inside the stale window. -/
theorem claim2_oldest_first_selection :
    (∀ (α : Type) (s : BridgeState α) (now : Nat),
        getPendingRequest s now = claimNextSpec s now) ∧
    (∀ (α : Type) (e1 e2 e3 : PendingRequest α) (u1 u2 u3 : Nat),
        e1.dispatched = false → e2.dispatched = false →
        e3.dispatched = false →
        e1.timestamp < e2.timestamp → e2.timestamp < e3.timestamp →
        u2 - u1 ≤ dispatchStaleTimeout → u3 - u1 ≤ dispatchStaleTimeout →
        u3 - u2 ≤ dispatchStaleTimeout →
        (getPendingRequest ⟨[e1, e2, e3]⟩ u1).2 =
            some ⟨e1.id, e1.endpoint, e1.data⟩ ∧
        (getPendingRequest (getPendingRequest ⟨[e1, e2, e3]⟩ u1).1 u2).2 =
            some ⟨e2.id, e2.endpoint, e2.data⟩ ∧
        (getPendingRequest (getPendingRequest (getPendingRequest
            ⟨[e1, e2, e3]⟩ u1).1 u2).1 u3).2 =
            some ⟨e3.id, e3.endpoint, e3.data⟩) :=
  ⟨fun _ s now => getPendingRequest_eq_claimNextSpec s now,
   fun _ e1 e2 e3 u1 u2 u3 hd1 hd2 hd3 h12 h23 hw1 hw2 hw3 =>
     threeClaims_scenario e1 e2 e3 u1 u2 u3 hd1 hd2 hd3 h12 h23 hw1 hw2 hw3⟩

/-- Witness for C2 at a concrete table of three requests. -/
theorem claim2_oldest_first_selection_witness :
    (getPendingRequest (⟨[]⟩ : BridgeState Nat) 5 = claimNextSpec ⟨[]⟩ 5) ∧
    ((getPendingRequest (⟨[⟨"a", "ea", 1, 10, 100, false, 0⟩,
          ⟨"b", "eb", 2, 20, 101, false, 0⟩,
          ⟨"c", "ec", 3, 30, 102, false, 0⟩]⟩ : BridgeState Nat) 50).2 =
        some ⟨"a", "ea", 1⟩ ∧
      (getPendingRequest (getPendingRequest
          (⟨[⟨"a", "ea", 1, 10, 100, false, 0⟩,
             ⟨"b", "eb", 2, 20, 101, false, 0⟩,
             ⟨"c", "ec", 3, 30, 102, false, 0⟩]⟩ : BridgeState Nat) 50).1
          60).2 = some ⟨"b", "eb", 2⟩ ∧
      (getPendingRequest (getPendingRequest (getPendingRequest
          (⟨[⟨"a", "ea", 1, 10, 100, false, 0⟩,
             ⟨"b", "eb", 2, 20, 101, false, 0⟩,
             ⟨"c", "ec", 3, 30, 102, false, 0⟩]⟩ : BridgeState Nat) 50).1
          60).1 70).2 = some ⟨"c", "ec", 3⟩) :=
  ⟨claim2_oldest_first_selection.1 Nat ⟨[]⟩ 5,
   claim2_oldest_first_selection.2 Nat
     ⟨"a", "ea", 1, 10, 100, false, 0⟩ ⟨"b", "eb", 2, 20, 101, false, 0⟩
     ⟨"c", "ec", 3, 30, 102, false, 0⟩ 50 60 70 rfl rfl rfl
     (by decide) (by decide) (by decide) (by decide) (by decide)⟩

/-- C1: a dispatched entry still inside the 45 s window is never returned
by `claimNext` — it stays excluded until resolved, rejected, or stale — and
consequently a second claim within 45 s of a first cannot return the id the
first claim returned. -/
theorem claim1_at_most_one_live_dispatch :
    (∀ (α : Type) (s : BridgeState α) (now : Nat) (e : PendingRequest α)
        (r : ClaimResponse α), wf s → e ∈ s.pendingRequests →
        e.dispatched = true → now - e.dispatchedAt ≤ dispatchStaleTimeout →
        (getPendingRequest s now).2 = some r → r.requestId ≠ e.id) ∧
    (∀ (α : Type) (s : BridgeState α) (t1 t2 : Nat)
        (r1 r2 : ClaimResponse α), wf s →
        (getPendingRequest s t1).2 = some r1 →
        t2 - t1 ≤ dispatchStaleTimeout →
        (getPendingRequest (getPendingRequest s t1).1 t2).2 = some r2 →
        r2.requestId ≠ r1.requestId) := by
  constructor
  · intro α s now e r hwf he hd hfresh h
    exact getPendingRequest_skips_live hwf h he hd hfresh
  · intro α s t1 t2 r1 r2 hwf h1 hwin h2
    obtain ⟨e, hmem, hid, hd, hdAt⟩ := getPendingRequest_marks h1
    have hwf1 : wf (getPendingRequest s t1).1 := getPendingRequest_wf t1 hwf
    have hskip := getPendingRequest_skips_live hwf1 h2 hmem hd (by omega)
    rw [hid] at hskip
    exact hskip

/-- Witness for C1 at concrete two-entry tables. -/
theorem claim1_at_most_one_live_dispatch_witness :
    ((⟨"b", "eb", 2⟩ : ClaimResponse Nat).requestId ≠ "a") ∧
    ((⟨"b", "eb", 2⟩ : ClaimResponse Nat).requestId ≠
      (⟨"a", "ea", 1⟩ : ClaimResponse Nat).requestId) :=
  ⟨claim1_at_most_one_live_dispatch.1 Nat
      ⟨[⟨"a", "ea", 1, 10, 100, true, 40⟩,
        ⟨"b", "eb", 2, 20, 101, false, 0⟩]⟩
      50 ⟨"a", "ea", 1, 10, 100, true, 40⟩ ⟨"b", "eb", 2⟩
      (by decide) (by decide) rfl (by decide) (by decide),
   claim1_at_most_one_live_dispatch.2 Nat
      ⟨[⟨"a", "ea", 1, 10, 100, false, 0⟩,
        ⟨"b", "eb", 2, 20, 101, false, 0⟩]⟩
      50 60 ⟨"a", "ea", 1⟩ ⟨"b", "eb", 2⟩
      (by decide) (by decide) (by decide) (by decide)⟩

/-- C8: a `claimNext` call never changes the table shape — the pending
count and the per-entry lists of ids, endpoints, payloads, creation times
and timeout handles are all unchanged, so only dispatch fields are mutated
in place and no entry is added or removed; in particular re-claiming a
single stale request returns the same request and leaves `getPendingCount`
unchanged. -/
theorem claim8_stale_reclaim_preserves_shape :
    (∀ (α : Type) (s : BridgeState α) (now : Nat),
      getPendingCount (getPendingRequest s now).1 = getPendingCount s ∧
      (getPendingRequest s now).1.pendingRequests.map (fun e => e.id) =
        s.pendingRequests.map (fun e => e.id) ∧
      (getPendingRequest s now).1.pendingRequests.map (fun e => e.endpoint) =
        s.pendingRequests.map (fun e => e.endpoint) ∧
      (getPendingRequest s now).1.pendingRequests.map (fun e => e.data) =
        s.pendingRequests.map (fun e => e.data) ∧
      (getPendingRequest s now).1.pendingRequests.map (fun e => e.timestamp) =
        s.pendingRequests.map (fun e => e.timestamp) ∧
      (getPendingRequest s now).1.pendingRequests.map (fun e => e.timeoutId) =
        s.pendingRequests.map (fun e => e.timeoutId)) ∧
    (∀ (α : Type) (e : PendingRequest α) (t0 t1 : Nat),
      e.dispatched = false → t1 - t0 > dispatchStaleTimeout →
      (getPendingRequest (getPendingRequest ⟨[e]⟩ t0).1 t1).2 =
          some ⟨e.id, e.endpoint, e.data⟩ ∧
      getPendingCount
          (getPendingRequest (getPendingRequest ⟨[e]⟩ t0).1 t1).1 =
        getPendingCount (⟨[e]⟩ : BridgeState α)) := by
  constructor
  · intro α s now
    refine ⟨?_, getPendingRequest_ids s now, ?_, ?_, ?_, ?_⟩
    · unfold getPendingCount
      exact getPendingRequest_length s now
    · exact getPendingRequest_map_field s now _ (fun e => by simp)
        (fun e => rfl)
    · exact getPendingRequest_map_field s now _ (fun e => by simp)
        (fun e => rfl)
    · exact getPendingRequest_map_field s now _ (fun e => by simp)
        (fun e => rfl)
    · exact getPendingRequest_map_field s now _ (fun e => by simp)
        (fun e => rfl)
  · intro α e t0 t1 hd hstale
    constructor
    · simp [getPendingRequest, claimScan, updateOldest, hd, hstale]
    · simp [getPendingCount, getPendingRequest, claimScan, updateOldest,
        hd, hstale]

/-- Witness for C8 at a concrete one-entry table re-claimed after 46 s. -/
theorem claim8_stale_reclaim_preserves_shape_witness :
    (getPendingCount (getPendingRequest
        (⟨[⟨"a", "ea", 7, 10, 100, false, 0⟩]⟩ : BridgeState Nat) 50).1 =
      getPendingCount
        (⟨[⟨"a", "ea", 7, 10, 100, false, 0⟩]⟩ : BridgeState Nat)) ∧
    ((getPendingRequest (getPendingRequest
        (⟨[⟨"a", "ea", 7, 10, 100, false, 0⟩]⟩ : BridgeState Nat) 50).1
        96000).2 = some ⟨"a", "ea", 7⟩ ∧
      getPendingCount (getPendingRequest (getPendingRequest
          (⟨[⟨"a", "ea", 7, 10, 100, false, 0⟩]⟩ : BridgeState Nat) 50).1
          96000).1 =
        getPendingCount
          (⟨[⟨"a", "ea", 7, 10, 100, false, 0⟩]⟩ : BridgeState Nat)) :=
  ⟨(claim8_stale_reclaim_preserves_shape.1 Nat
      ⟨[⟨"a", "ea", 7, 10, 100, false, 0⟩]⟩ 50).1,
   claim8_stale_reclaim_preserves_shape.2 Nat
     ⟨"a", "ea", 7, 10, 100, false, 0⟩ 50 96000 rfl (by decide)⟩

/-- C9: a submitted request is handed to the next claim with its endpoint
and payload passed through unmodified, and resolving the claimed id settles
the caller with exactly the given response, emptying the table. -/
theorem claim9_submit_claim_resolve_round_trip :
    ∀ (α ρ : Type) (id0 ep : String) (payload : α) (t0 tid now : Nat)
      (resp : ρ),
      (getPendingRequest (sendRequest ⟨[]⟩ id0 ep payload t0 tid) now).2 =
          some ⟨id0, ep, payload⟩ ∧
      resolveRequest
          (getPendingRequest (sendRequest ⟨[]⟩ id0 ep payload t0 tid) now).1
          id0 resp =
        (⟨[]⟩, ([Event.cancelTimeout tid,
           Event.settled id0 (Settlement.resolved resp)] : List (Event ρ))) := by
  intro α ρ id0 ep payload t0 tid now resp
  constructor <;>
    simp [sendRequest, getPendingRequest, claimScan, updateOldest,
      resolveRequest]

/-- C5: resolving or rejecting an id that is not in the table leaves the
table untouched, fires no event, and raises no error. -/
theorem claim5_unknown_id_silent_noop :
    ∀ (α ρ : Type) (s : BridgeState α) (id0 : String) (resp : ρ)
      (err : String),
      (∀ e ∈ s.pendingRequests, e.id ≠ id0) →
      @resolveRequest α ρ s id0 resp = (s, []) ∧
      @rejectRequest α ρ s id0 err = (s, []) :=
  fun _ _ _ _ resp err h =>
    ⟨resolveRequest_absent h resp, rejectRequest_absent h err⟩

/-- Witness for C5 at a concrete one-entry table and a foreign id. -/
theorem claim5_unknown_id_silent_noop_witness :
    @resolveRequest Nat Nat
        ⟨[⟨"a", "ea", 1, 10, 100, false, 0⟩]⟩ "z" 5 =
      (⟨[⟨"a", "ea", 1, 10, 100, false, 0⟩]⟩, []) ∧
    @rejectRequest Nat Nat
        ⟨[⟨"a", "ea", 1, 10, 100, false, 0⟩]⟩ "z" "boom" =
      (⟨[⟨"a", "ea", 1, 10, 100, false, 0⟩]⟩, []) :=
  claim5_unknown_id_silent_noop Nat Nat
    ⟨[⟨"a", "ea", 1, 10, 100, false, 0⟩]⟩ "z" 5 "boom" (by decide)

/-- C4: on a present id, `resolveRequest` (resp. `rejectRequest`) cancels
the entry's timeout, removes the entry, and settles the promise exactly
once with the given value (resp. error); a second resolve or reject of the
same id, in either order, changes nothing and fires no event. -/
theorem claim4_terminal_resolution_exactly_once :
    ∀ (α ρ : Type) (s : BridgeState α) (e : PendingRequest α)
      (resp resp2 : ρ) (err err2 : String),
      wf s → e ∈ s.pendingRequests →
      (@resolveRequest α ρ s e.id resp =
          (⟨s.pendingRequests.filter (fun r => !decide (r.id = e.id))⟩,
           [Event.cancelTimeout e.timeoutId,
            Event.settled e.id (Settlement.resolved resp)]) ∧
       @resolveRequest α ρ (@resolveRequest α ρ s e.id resp).1 e.id resp2 =
          ((@resolveRequest α ρ s e.id resp).1, []) ∧
       @rejectRequest α ρ (@resolveRequest α ρ s e.id resp).1 e.id err =
          ((@resolveRequest α ρ s e.id resp).1, [])) ∧
      (@rejectRequest α ρ s e.id err =
          (⟨s.pendingRequests.filter (fun r => !decide (r.id = e.id))⟩,
           [Event.cancelTimeout e.timeoutId,
            Event.settled e.id (Settlement.rejected err)]) ∧
       @resolveRequest α ρ (@rejectRequest α ρ s e.id err).1 e.id resp2 =
          ((@rejectRequest α ρ s e.id err).1, []) ∧
       @rejectRequest α ρ (@rejectRequest α ρ s e.id err).1 e.id err2 =
          ((@rejectRequest α ρ s e.id err).1, [])) := by
  intro α ρ s e resp resp2 err err2 hwf he
  refine ⟨⟨resolveRequest_found hwf he resp, ?_, ?_⟩,
    ⟨rejectRequest_found hwf he err, ?_, ?_⟩⟩
  · rw [resolveRequest_found hwf he resp]
    exact resolveRequest_absent (filter_id_not_mem e.id) resp2
  · rw [resolveRequest_found hwf he resp]
    exact rejectRequest_absent (filter_id_not_mem e.id) err
  · rw [rejectRequest_found hwf he err]
    exact resolveRequest_absent (filter_id_not_mem e.id) resp2
  · rw [rejectRequest_found hwf he err]
    exact rejectRequest_absent (filter_id_not_mem e.id) err2

/-- Witness for C4: a second resolve of an already-resolved id is a no-op
at a concrete table. -/
theorem claim4_terminal_resolution_exactly_once_witness :
    @resolveRequest Nat Nat
        (@resolveRequest Nat Nat
          ⟨[⟨"a", "ea", 1, 10, 100, false, 0⟩]⟩ "a" 5).1 "a" 6 =
      ((@resolveRequest Nat Nat
          ⟨[⟨"a", "ea", 1, 10, 100, false, 0⟩]⟩ "a" 5).1, []) :=
  (claim4_terminal_resolution_exactly_once Nat Nat
    ⟨[⟨"a", "ea", 1, 10, 100, false, 0⟩]⟩
    ⟨"a", "ea", 1, 10, 100, false, 0⟩ 5 6 "x" "y"
    (by decide) (by decide)).1.2.1

/-- C10: `resolveRequest` and `rejectRequest` settle and remove a present
entry whatever its `dispatched` flag is — no dispatch is required before a
terminal transition. -/
theorem claim10_terminal_regardless_of_dispatch :
    ∀ (α ρ : Type) (s : BridgeState α) (e : PendingRequest α) (b : Bool)
      (resp : ρ) (err : String),
      wf s → e ∈ s.pendingRequests → e.dispatched = b →
      @resolveRequest α ρ s e.id resp =
        (⟨s.pendingRequests.filter (fun r => !decide (r.id = e.id))⟩,
         [Event.cancelTimeout e.timeoutId,
          Event.settled e.id (Settlement.resolved resp)]) ∧
      @rejectRequest α ρ s e.id err =
        (⟨s.pendingRequests.filter (fun r => !decide (r.id = e.id))⟩,
         [Event.cancelTimeout e.timeoutId,
          Event.settled e.id (Settlement.rejected err)]) :=
  fun _ _ _ _ _ resp err hwf he _ =>
    ⟨resolveRequest_found hwf he resp, rejectRequest_found hwf he err⟩

/-- Witness for C10 at one undispatched and one dispatched entry. -/
theorem claim10_terminal_regardless_of_dispatch_witness :
    (@resolveRequest Nat Nat
        ⟨[⟨"a", "ea", 1, 10, 100, false, 0⟩]⟩ "a" 5 =
      (⟨[]⟩, [Event.cancelTimeout 100,
        Event.settled "a" (Settlement.resolved 5)])) ∧
    (@rejectRequest Nat Nat
        ⟨[⟨"b", "eb", 2, 10, 101, true, 9⟩]⟩ "b" "down" =
      (⟨[]⟩, [Event.cancelTimeout 101,
        Event.settled "b" (Settlement.rejected "down")])) :=
  ⟨(claim10_terminal_regardless_of_dispatch Nat Nat
      ⟨[⟨"a", "ea", 1, 10, 100, false, 0⟩]⟩
      ⟨"a", "ea", 1, 10, 100, false, 0⟩ false 5 "x"
      (by decide) (by decide) rfl).1,
   (claim10_terminal_regardless_of_dispatch Nat Nat
      ⟨[⟨"b", "eb", 2, 10, 101, true, 9⟩]⟩
      ⟨"b", "eb", 2, 10, 101, true, 9⟩ true 7 "down"
      (by decide) (by decide) rfl).2⟩

/-- C6: `clearAllPendingRequests` cancels every entry's timeout, rejects
every promise exactly once with a connection-closed error, and empties the
table; clearing the already-empty result again does nothing. -/
theorem claim6_clearAll_rejects_all_exactly_once :
    ∀ (α ρ : Type) (s : BridgeState α), wf s →
      (@clearAllPendingRequests α ρ s).1.pendingRequests = [] ∧
      getPendingCount (@clearAllPendingRequests α ρ s).1 = 0 ∧
      (∀ e ∈ s.pendingRequests,
        Event.cancelTimeout e.timeoutId ∈
          (@clearAllPendingRequests α ρ s).2 ∧
        Event.settled e.id (Settlement.rejected "Connection closed") ∈
          (@clearAllPendingRequests α ρ s).2 ∧
        (@clearAllPendingRequests α ρ s).2.countP (settlesId e.id) = 1) ∧
      @clearAllPendingRequests α ρ (@clearAllPendingRequests α ρ s).1 =
        ((@clearAllPendingRequests α ρ s).1, []) := by
  intro α ρ s hwf
  refine ⟨rfl, rfl, ?_, rfl⟩
  intro e he
  refine ⟨List.mem_flatMap.mpr ⟨e, he, by simp⟩,
    List.mem_flatMap.mpr ⟨e, he, by simp⟩, ?_⟩
  rw [show (@clearAllPendingRequests α ρ s).2 =
    s.pendingRequests.flatMap (fun request =>
      [Event.cancelTimeout request.timeoutId,
       Event.settled request.id
         (Settlement.rejected "Connection closed")]) from rfl]
  rw [reject_flatMap_countP]
  exact List.count_eq_one_of_mem hwf (List.mem_map_of_mem _ he)

/-- Witness for C6 at a concrete three-entry table (one dispatched). -/
theorem claim6_clearAll_rejects_all_exactly_once_witness :
    getPendingCount (@clearAllPendingRequests Nat Nat
        ⟨[⟨"a", "ea", 1, 10, 100, false, 0⟩,
          ⟨"b", "eb", 2, 20, 101, true, 30⟩,
          ⟨"c", "ec", 3, 25, 102, false, 0⟩]⟩).1 = 0 ∧
    (@clearAllPendingRequests Nat Nat
        ⟨[⟨"a", "ea", 1, 10, 100, false, 0⟩,
          ⟨"b", "eb", 2, 20, 101, true, 30⟩,
          ⟨"c", "ec", 3, 25, 102, false, 0⟩]⟩).2.countP
      (settlesId "b") = 1 :=
  ⟨(claim6_clearAll_rejects_all_exactly_once Nat Nat
      ⟨[⟨"a", "ea", 1, 10, 100, false, 0⟩,
        ⟨"b", "eb", 2, 20, 101, true, 30⟩,
        ⟨"c", "ec", 3, 25, 102, false, 0⟩]⟩ (by decide)).2.1,
   ((claim6_clearAll_rejects_all_exactly_once Nat Nat
      ⟨[⟨"a", "ea", 1, 10, 100, false, 0⟩,
        ⟨"b", "eb", 2, 20, 101, true, 30⟩,
        ⟨"c", "ec", 3, 25, 102, false, 0⟩]⟩ (by decide)).2.2.1
      ⟨"b", "eb", 2, 20, 101, true, 30⟩ (by decide)).2.2⟩

/-- C7: the sweep removes exactly the over-age entries — each such entry
has its timeout cancelled, is deleted, and is rejected with a timeout error
exactly once — while every fresh entry is kept verbatim (same fields, same
dispatch state, same order). -/
theorem claim7_sweep_removes_exactly_overage :
    ∀ (α ρ : Type) (s : BridgeState α) (now : Nat), wf s →
      (@cleanupOldRequests α ρ s now).1.pendingRequests =
        s.pendingRequests.filter
          (fun e => !decide (now - e.timestamp > requestTimeout)) ∧
      (∀ e ∈ s.pendingRequests, now - e.timestamp > requestTimeout →
        Event.cancelTimeout e.timeoutId ∈
          (@cleanupOldRequests α ρ s now).2 ∧
        Event.settled e.id (Settlement.rejected "Request timeout") ∈
          (@cleanupOldRequests α ρ s now).2 ∧
        (@cleanupOldRequests α ρ s now).2.countP (settlesId e.id) = 1 ∧
        ∀ x ∈ (@cleanupOldRequests α ρ s now).1.pendingRequests,
          x.id ≠ e.id) ∧
      (∀ e ∈ s.pendingRequests, ¬ now - e.timestamp > requestTimeout →
        e ∈ (@cleanupOldRequests α ρ s now).1.pendingRequests) := by
  intro α ρ s now hwf
  have hpost : (@cleanupOldRequests α ρ s now).1.pendingRequests =
      s.pendingRequests.filter
        (fun e => !decide (now - e.timestamp > requestTimeout)) := by
    unfold cleanupOldRequests
    rw [cleanupScan_eq]
  have hev : (@cleanupOldRequests α ρ s now).2 =
      (s.pendingRequests.filter
        (fun e => decide (now - e.timestamp > requestTimeout))).flatMap
        (fun request =>
          [Event.cancelTimeout request.timeoutId,
           Event.settled request.id (Settlement.rejected "Request timeout")]) := by
    unfold cleanupOldRequests
    rw [cleanupScan_eq]
  refine ⟨hpost, ?_, ?_⟩
  · intro e he hover
    have hem : e ∈ s.pendingRequests.filter
        (fun e => decide (now - e.timestamp > requestTimeout)) :=
      List.mem_filter.mpr ⟨he, by simpa using hover⟩
    refine ⟨?_, ?_, ?_, ?_⟩
    · rw [hev]; exact List.mem_flatMap.mpr ⟨e, hem, by simp⟩
    · rw [hev]; exact List.mem_flatMap.mpr ⟨e, hem, by simp⟩
    · rw [hev, reject_flatMap_countP]
      have hsub : ((s.pendingRequests.filter
          (fun e => decide (now - e.timestamp > requestTimeout))).map
            (fun r => r.id)).Sublist
          (s.pendingRequests.map (fun r => r.id)) :=
        (List.filter_sublist s.pendingRequests).map (fun r => r.id)
      exact List.count_eq_one_of_mem (List.Nodup.sublist hsub hwf)
        (List.mem_map_of_mem _ hem)
    · intro x hx
      rw [hpost] at hx
      obtain ⟨hxs, hxkeep⟩ := List.mem_filter.mp hx
      intro hcontra
      have hxe : x = e := List.inj_on_of_nodup_map hwf hxs he hcontra
      rw [hxe] at hxkeep
      simp [hover] at hxkeep
  · intro e he hfresh
    rw [hpost]
    exact List.mem_filter.mpr ⟨he, by simpa using hfresh⟩

/-- Witness for C7 at a concrete two-entry table, one over-age. -/
theorem claim7_sweep_removes_exactly_overage_witness :
    ((@cleanupOldRequests Nat Nat
        ⟨[⟨"a", "ea", 1, 10, 100, false, 0⟩,
          ⟨"b", "eb", 2, 70000, 101, false, 0⟩]⟩ 70011).1.pendingRequests =
      List.filter
        (fun e => !decide (70011 - e.timestamp > requestTimeout))
        [⟨"a", "ea", 1, 10, 100, false, 0⟩,
         ⟨"b", "eb", 2, 70000, 101, false, 0⟩]) ∧
    ((@cleanupOldRequests Nat Nat
        ⟨[⟨"a", "ea", 1, 10, 100, false, 0⟩,
          ⟨"b", "eb", 2, 70000, 101, false, 0⟩]⟩ 70011).2.countP
      (settlesId "a") = 1) ∧
    ((⟨"b", "eb", 2, 70000, 101, false, 0⟩ : PendingRequest Nat) ∈
      (@cleanupOldRequests Nat Nat
        ⟨[⟨"a", "ea", 1, 10, 100, false, 0⟩,
          ⟨"b", "eb", 2, 70000, 101, false, 0⟩]⟩ 70011).1.pendingRequests) :=
  ⟨(claim7_sweep_removes_exactly_overage Nat Nat
      ⟨[⟨"a", "ea", 1, 10, 100, false, 0⟩,
        ⟨"b", "eb", 2, 70000, 101, false, 0⟩]⟩ 70011 (by decide)).1,
   ((claim7_sweep_removes_exactly_overage Nat Nat
      ⟨[⟨"a", "ea", 1, 10, 100, false, 0⟩,
        ⟨"b", "eb", 2, 70000, 101, false, 0⟩]⟩ 70011 (by decide)).2.1
      ⟨"a", "ea", 1, 10, 100, false, 0⟩ (by decide) (by decide)).2.2.1,
   ((claim7_sweep_removes_exactly_overage Nat Nat
      ⟨[⟨"a", "ea", 1, 10, 100, false, 0⟩,
        ⟨"b", "eb", 2, 70000, 101, false, 0⟩]⟩ 70011 (by decide)).2.2
      ⟨"b", "eb", 2, 70000, 101, false, 0⟩ (by decide) (by decide))⟩

/-- C3: every `claimNext` call resets, in place, every dispatched entry
whose dispatch is older than 45 s to `dispatched=false, dispatchedAt=0` —
also when that entry is not the one chosen (the chosen one is instead
re-marked dispatched at `now`) — and it never selects a dispatched entry
still inside the 45 s window, leaving such an entry untouched. -/
theorem claim3_stale_recovery_scan_side_effect :
    ∀ (α : Type) (s : BridgeState α) (now : Nat), wf s →
    ∀ i, ∀ hi : i < s.pendingRequests.length,
    ∀ hi2 : i < (getPendingRequest s now).1.pendingRequests.length,
      (s.pendingRequests[i].dispatched = true →
        now - s.pendingRequests[i].dispatchedAt > dispatchStaleTimeout →
        ((getPendingRequest s now).1.pendingRequests[i] =
            { s.pendingRequests[i] with
                dispatched := false, dispatchedAt := 0 } ∨
          ((getPendingRequest s now).2 = some ⟨s.pendingRequests[i].id,
              s.pendingRequests[i].endpoint, s.pendingRequests[i].data⟩ ∧
            (getPendingRequest s now).1.pendingRequests[i] =
              { s.pendingRequests[i] with
                  dispatched := true, dispatchedAt := now }))) ∧
      (s.pendingRequests[i].dispatched = true →
        now - s.pendingRequests[i].dispatchedAt ≤ dispatchStaleTimeout →
        (getPendingRequest s now).1.pendingRequests[i] =
          s.pendingRequests[i] ∧
        ∀ r, (getPendingRequest s now).2 = some r →
          r.requestId ≠ s.pendingRequests[i].id) := by
  intro α s now hwf i hi hi2
  constructor
  · intro hd hstale
    have hreset : resetStale now s.pendingRequests[i] =
        { s.pendingRequests[i] with dispatched := false, dispatchedAt := 0 } :=
      resetStale_of_stale hd hstale
    cases hr : (getPendingRequest s now).2 with
    | none =>
      left
      have hpost := getPendingRequest_none hr
      have hval : (getPendingRequest s now).1.pendingRequests[i] =
          resetStale now s.pendingRequests[i] := by
        simp [hpost]
      rw [hval, hreset]
    | some r =>
      obtain ⟨j, hj, helig, hid, hep, hdata, hpost⟩ := getPendingRequest_some hr
      by_cases hij : j = i
      · subst hij
        right
        constructor
        · rw [← hid, ← hep, ← hdata]
        · have hval : (getPendingRequest s now).1.pendingRequests[j] =
              { resetStale now s.pendingRequests[j] with
                  dispatched := true, dispatchedAt := now } := by
            simp [hpost]
          rw [hval, hreset]
      · left
        have hval : (getPendingRequest s now).1.pendingRequests[i] =
            resetStale now s.pendingRequests[i] := by
          simp [hpost, List.getElem_set, hij]
        rw [hval, hreset]
  · intro hd hfreshle
    have hfresh : ¬ now - s.pendingRequests[i].dispatchedAt >
        dispatchStaleTimeout := not_lt.mpr hfreshle
    have hreset : resetStale now s.pendingRequests[i] =
        s.pendingRequests[i] := resetStale_of_fresh hfresh
    constructor
    · cases hr : (getPendingRequest s now).2 with
      | none =>
        have hpost := getPendingRequest_none hr
        have hval : (getPendingRequest s now).1.pendingRequests[i] =
            resetStale now s.pendingRequests[i] := by
          simp [hpost]
        rw [hval, hreset]
      | some r =>
        obtain ⟨j, hj, helig, -, -, -, hpost⟩ := getPendingRequest_some hr
        by_cases hij : j = i
        · subst hij
          rw [hreset, hd] at helig
          simp at helig
        · have hval : (getPendingRequest s now).1.pendingRequests[i] =
              resetStale now s.pendingRequests[i] := by
            simp [hpost, List.getElem_set, hij]
          rw [hval, hreset]
    · intro r hr
      exact getPendingRequest_skips_live hwf hr
        (List.getElem_mem hi) hd hfreshle

/-- Witness for C3 at a table with one stale-dispatched and one
live-dispatched entry. -/
theorem claim3_stale_recovery_scan_side_effect_witness :
    ((getPendingRequest (⟨[⟨"a", "ea", 1, 10, 100, true, 1000⟩,
          ⟨"b", "eb", 2, 20, 101, true, 50000⟩]⟩ : BridgeState Nat)
        90000).1.pendingRequests.get ⟨0, by decide⟩ =
        (⟨"a", "ea", 1, 10, 100, false, 0⟩ : PendingRequest Nat) ∨
      ((getPendingRequest (⟨[⟨"a", "ea", 1, 10, 100, true, 1000⟩,
            ⟨"b", "eb", 2, 20, 101, true, 50000⟩]⟩ : BridgeState Nat)
          90000).2 = some ⟨"a", "ea", 1⟩ ∧
        (getPendingRequest (⟨[⟨"a", "ea", 1, 10, 100, true, 1000⟩,
            ⟨"b", "eb", 2, 20, 101, true, 50000⟩]⟩ : BridgeState Nat)
          90000).1.pendingRequests.get ⟨0, by decide⟩ =
          (⟨"a", "ea", 1, 10, 100, true, 90000⟩ : PendingRequest Nat))) ∧
    ((getPendingRequest (⟨[⟨"a", "ea", 1, 10, 100, true, 1000⟩,
          ⟨"b", "eb", 2, 20, 101, true, 50000⟩]⟩ : BridgeState Nat)
        90000).1.pendingRequests.get ⟨1, by decide⟩ =
        (⟨"b", "eb", 2, 20, 101, true, 50000⟩ : PendingRequest Nat) ∧
      ∀ r, (getPendingRequest (⟨[⟨"a", "ea", 1, 10, 100, true, 1000⟩,
            ⟨"b", "eb", 2, 20, 101, true, 50000⟩]⟩ : BridgeState Nat)
          90000).2 = some r → r.requestId ≠ "b") :=
  ⟨(claim3_stale_recovery_scan_side_effect Nat
      ⟨[⟨"a", "ea", 1, 10, 100, true, 1000⟩,
        ⟨"b", "eb", 2, 20, 101, true, 50000⟩]⟩ 90000 (by decide)
      0 (by decide) (by decide)).1 rfl (by decide),
   (claim3_stale_recovery_scan_side_effect Nat
      ⟨[⟨"a", "ea", 1, 10, 100, true, 1000⟩,
        ⟨"b", "eb", 2, 20, 101, true, 50000⟩]⟩ 90000 (by decide)
      1 (by decide) (by decide)).2 rfl (by decide)⟩

end Claims

end Bridge
